import Mathlib

/-!
A shallow embedding of the vector-search engine of the repository
(`backend/vector_store/faiss_store.py`, `backend/vector_store/index_utils.py`,
and the retrieval boundary `get_knowledge_context` / `_format_context` of
`backend/main.py`).

Modelling conventions:
* Embedding vectors are `List ℚ`.  The neural embedding model and the FAISS
  L2-normalisation are external to the repository's code; both are absorbed
  into an abstract parameter `embed : String → List ℚ` (resp.
  `embedB : List String → List (List ℚ)` for `embed_batch`), standing for
  "embed then `faiss.normalize_L2`".  Exact rationals replace float32; the
  claims under study are about cardinality, ordering, filtering and
  persistence, none of which depend on rounding.
* A Python `dict` of metadata is modelled as an association list
  `List (String × String)`; the empty dict is `[]`.
* `faiss.IndexFlatIP` is exact inner-product search: `index.search(q, k)`
  returns the `k` largest inner products in non-increasing order together
  with their positions.  We model it by sorting all (similarity, position)
  pairs by non-increasing similarity (stable sort, matching FAISS's
  deterministic tie handling for a flat index) and taking `k`.  Positions are
  `ℤ` because the FAISS API returns int64 indices (with `-1` possible in
  general), and the Python code guards `idx >= 0`.
* Exceptions are modelled with `Except String`.
-/

/-- A metadata dict, as an association list. -/
abbrev Metadata := List (String × String)

/-- One search result: `(document_text, similarity_score, metadata)`. -/
abbrev SearchResult := String × ℚ × Metadata

/-- The mutable state of `FAISSVectorStore`: the FAISS index (`none` before
`build_index`/`load`, otherwise the stored, already-normalised vectors in
insertion order), the parallel `documents` and `metadata` arrays, and the
embedding dimension. -/
structure FAISSVectorStore where
  index : Option (List (List ℚ))
  documents : List String
  metadata : List Metadata
  dimension : ℕ
deriving Repr, DecidableEq

/-- Inner product of two vectors (`np.dot` restricted to equal length;
FAISS pads/truncates never occur since all vectors share the dimension). -/
def innerProduct (u v : List ℚ) : ℚ := (List.zipWith (· * ·) u v).sum

/-- The (similarity, position) pairs of a query against every stored vector,
positions counted from `i`. -/
def simPairs (q : List ℚ) : List (List ℚ) → ℤ → List (ℚ × ℤ)
  | [], _ => []
  | v :: vs, i => (innerProduct q v, i) :: simPairs q vs (i + 1)

/-- Non-increasing-similarity order on (similarity, position) pairs. -/
def simOrder (a b : ℚ × ℤ) : Prop := b.1 ≤ a.1

instance : DecidableRel simOrder := fun a b => inferInstanceAs (Decidable (b.1 ≤ a.1))

instance : IsTotal (ℚ × ℤ) simOrder := ⟨fun a b => le_total b.1 a.1⟩

instance : IsTrans (ℚ × ℤ) simOrder := ⟨fun _ _ _ h h' => le_trans h' h⟩

/-- `faiss.IndexFlatIP.search`: the `k` pairs of largest inner product, in
non-increasing order of similarity (stable in insertion order on ties). -/
def faissSearch (vecs : List (List ℚ)) (q : List ℚ) (k : ℕ) : List (ℚ × ℤ) :=
  (List.insertionSort simOrder (simPairs q vecs 0)).take k

/-- The result-formatting loop of `FAISSVectorStore.search`
(faiss_store.py lines 102-128): keep a neighbour iff `idx >= 0 and
similarity >= threshold`, skip (`continue`) when `idx >= len(documents)`,
default the metadata to the empty dict when `idx >= len(metadata)` (the
`isinstance(metadata, dict)` guard is vacuous in the typed model). -/
def formatStep (docs : List String) (md : List Metadata) (threshold : ℚ)
    (p : ℚ × ℤ) : Option SearchResult :=
  if 0 ≤ p.2 ∧ threshold ≤ p.1 then
    if docs.length ≤ p.2.toNat then none
    else
      some (docs.getD p.2.toNat "", p.1,
        if p.2.toNat < md.length then md.getD p.2.toNat [] else [])
  else none

def formatResults (docs : List String) (md : List Metadata) (threshold : ℚ)
    (pairs : List (ℚ × ℤ)) : List SearchResult :=
  pairs.filterMap (formatStep docs md threshold)

/-- `FAISSVectorStore.search` (faiss_store.py lines 75-128).  The query
embedding plus its L2-normalisation is the abstract `embed`. -/
def FAISSVectorStore.search (s : FAISSVectorStore) (embed : String → List ℚ)
    (query : String) (top_k : ℕ) (threshold : ℚ) : List SearchResult :=
  match s.index with
  | none => []
  | some vecs =>
    if vecs.length = 0 then []
    else
      formatResults s.documents s.metadata threshold
        (faissSearch vecs (embed query) (min top_k vecs.length))

/-- `FAISSVectorStore.build_index` (faiss_store.py lines 35-73): batch-embed
(then normalise) the documents, build a fresh flat index from them, and set
the parallel arrays, padding a short metadata list with empty dicts and
truncating a long one.  The `save` side effect is modelled separately. -/
def FAISSVectorStore.build_index (s : FAISSVectorStore)
    (embedB : List String → List (List ℚ)) (documents : List String)
    (metadata : Option (List Metadata)) : FAISSVectorStore :=
  { s with
    index := some (embedB documents),
    documents := documents,
    metadata :=
      match metadata with
      | none => List.replicate documents.length []
      | some m =>
        if m.length < documents.length then
          m ++ List.replicate (documents.length - m.length) []
        else m.take documents.length }

/-- `FAISSVectorStore.add_documents` (faiss_store.py lines 193-215): with no
index yet it delegates to `build_index`; otherwise it appends the new
vectors and extends the parallel arrays.  Note the source extends
`self.metadata` with the given list verbatim when it is non-empty
(`if metadata:`), and pads with empty dicts only when it is `None` or
empty — there is no per-batch padding or truncation. -/
def FAISSVectorStore.add_documents (s : FAISSVectorStore)
    (embedB : List String → List (List ℚ)) (documents : List String)
    (metadata : Option (List Metadata)) : FAISSVectorStore :=
  match s.index with
  | none => s.build_index embedB documents metadata
  | some vecs =>
    { s with
      index := some (vecs ++ embedB documents),
      documents := s.documents ++ documents,
      metadata := s.metadata ++
        (match metadata with
         | some m => if m.isEmpty then List.replicate documents.length [] else m
         | none => List.replicate documents.length []) }

/-- `_format_context` (main.py lines 283-305): concatenate the result texts,
appending `Source: <url>` after the first occurrence of each non-empty url;
join with blank lines.  (Every result in the typed model is a 3-tuple with a
dict, so the shape guards of the source are vacuous.) -/
def formatContextAux : List SearchResult → List String → List String → List String
  | [], parts, _ => parts
  | (text, _, md) :: rest, parts, seen =>
    let parts := parts ++ [text]
    match md.lookup "url" with
    | some url =>
      if url ≠ "" ∧ url ∉ seen then
        formatContextAux rest (parts ++ ["Source: " ++ url]) (seen ++ [url])
      else formatContextAux rest parts seen
    | none => formatContextAux rest parts seen

def formatContext (results : List SearchResult) : String :=
  String.intercalate "\n\n" (formatContextAux results [] [])

/-- `get_knowledge_context` (main.py lines 308-348).  The global
`vector_store_instance` may be unset (`none`); the outcome of
`vector_store_instance.search(...)` — which can raise, e.g. from the
embedding backend — is passed in as an `Except` value, and the
`try/except Exception` of the source maps every error to `""`. -/
def get_knowledge_context (store : Option FAISSVectorStore)
    (searchOutcome : Except String (List SearchResult)) : String :=
  match store with
  | none => ""
  | some _ =>
    match searchOutcome with
    | Except.error _ => ""
    | Except.ok results => if results.isEmpty then "" else formatContext results

/-- A character-list `startsWith`. -/
def startsWithL : List Char → List Char → Bool
  | [], _ => true
  | _ :: _, [] => false
  | p :: ps, c :: cs => p == c && startsWithL ps cs

/-- Python's `str.replace(pat, repl)` (all non-overlapping occurrences, left
to right), via fuel; `pyReplace` supplies fuel `s.length`, which never runs
out for a non-empty pattern. -/
def pyReplaceAux (pat repl : List Char) : ℕ → List Char → List Char
  | 0, s => s
  | Nat.succ fuel, s =>
    match s with
    | [] => []
    | c :: rest =>
      if startsWithL pat s then repl ++ pyReplaceAux pat repl fuel (s.drop pat.length)
      else c :: pyReplaceAux pat repl fuel rest

def pyReplace (s pat repl : String) : String :=
  ⟨pyReplaceAux pat.data repl.data s.data.length s.data⟩

/-- Does `pat` occur as a contiguous substring of `s`? -/
def hasSub (pat : List Char) : List Char → Bool
  | [] => startsWithL pat []
  | c :: rest => startsWithL pat (c :: rest) || hasSub pat (rest)

/-- The data path derived in `save` (faiss_store.py line 139):
`path.replace('.index', '.data')`. -/
def saveDataPath (path : String) : String := pyReplace path ".index" ".data"

/-- The data path derived in `load` (faiss_store.py line 164). -/
def loadDataPath (path : String) : String := pyReplace path ".index" ".data"

/-- The data path derived in `check_index_exists` (index_utils.py line 15). -/
def checkDataPath (index_path : String) : String := pyReplace index_path ".index" ".data"

/-- A file on disk: either a FAISS index artifact (written by
`faiss.write_index`: the stored vectors and the index dimension `d`) or the
pickled data artifact (`{'documents': ..., 'metadata': ..., 'dimension':
...}` written by `pickle.dump`). -/
inductive DiskFile where
  | indexFile : List (List ℚ) → ℕ → DiskFile
  | dataFile : List String → List Metadata → ℕ → DiskFile
deriving Repr, DecidableEq

/-- The filesystem: a map from path to file contents. -/
abbrev Disk := String → Option DiskFile

/-- A filesystem holding no files. -/
def emptyDisk : Disk := fun _ => none

/-- `FAISSVectorStore.save` (faiss_store.py lines 130-147) as a disk
transformer: `faiss.write_index(self.index, path)` writes the index artifact
at `path`, then `pickle.dump` writes the data artifact at the derived
`data_path = path.replace('.index', '.data')` (`saveDataPath`).  The data
write happens second, so when the two paths coincide it overwrites the
index artifact.  (`faiss.write_index` would fail on a `None` index; the
theorems using `save` apply it to built stores.  `os.makedirs` is a no-op
in the map model.) -/
def FAISSVectorStore.save (s : FAISSVectorStore) (path : String)
    (disk : Disk) : Disk :=
  let withIndex : Disk := fun p =>
    if p = path then some (DiskFile.indexFile (s.index.getD []) s.dimension)
    else disk p
  fun p =>
    if p = saveDataPath path then
      some (DiskFile.dataFile s.documents s.metadata s.dimension)
    else withIndex p

/-- `FAISSVectorStore.load` (faiss_store.py lines 149-191), reading from the
disk.  A missing index file is the early `return` with the store unchanged;
`faiss.read_index` on a file that is not a FAISS index artifact raises
(modelled as `Except.error`), as does `pickle.load` on a file that is not a
pickle.  Python truthiness of the stored dimension
(`stored_dimension if stored_dimension else ...`) becomes a `≠ 0` test.  A
metadata array shorter than the documents array is padded with empty dicts,
a longer one truncated. -/
def FAISSVectorStore.load (s : FAISSVectorStore) (path : String)
    (disk : Disk) : Except String FAISSVectorStore :=
  match disk path with
  | none => Except.ok s
  | some (DiskFile.dataFile _ _ _) =>
    Except.error "faiss.read_index failed: not a FAISS index file"
  | some (DiskFile.indexFile vectors d) =>
    match disk (loadDataPath path) with
    | some (DiskFile.indexFile _ _) =>
      Except.error "pickle.load failed: not a pickle"
    | some (DiskFile.dataFile docs md dim) =>
      Except.ok
        { s with
          index := some vectors,
          documents := docs,
          metadata :=
            if md.length < docs.length then
              md ++ List.replicate (docs.length - md.length) []
            else if docs.length < md.length then
              md.take docs.length
            else md,
          dimension := if dim ≠ 0 then dim else s.dimension }
    | none =>
      Except.ok
        { s with
          index := some vectors,
          documents := [],
          metadata := [],
          dimension := if d ≠ 0 then d else s.dimension }

/-! Concrete instances used to witness the theorems on sample inputs. -/

/-- A freshly constructed store (`FAISSVectorStore.__init__` with no
pre-existing index file): no index, empty parallel arrays. -/
def demoStore0 : FAISSVectorStore := ⟨none, [], [], 384⟩

/-- A store of one indexed vector `[1]` with its parallel arrays. -/
def demoStore1 : FAISSVectorStore := ⟨some [[1]], ["doc0"], [[]], 1⟩

/-- A query embedding mapping every string to `[1]`. -/
def demoEmbed1 : String → List ℚ := fun _ => [1]

/-- A query embedding mapping every string to `[-1]` (anti-aligned with the
stored vector of `demoStore1`, so the cosine similarity is `-1`). -/
def demoEmbedNeg : String → List ℚ := fun _ => [-1]

/-- A batch embedding mapping each text to `[1]`. -/
def demoEmbedB : List String → List (List ℚ) := fun ts => ts.map fun _ => [1]

/-! ### Helper lemmas -/

theorem pyReplaceAux_of_not_hasSub (pat repl : List Char) :
    ∀ (fuel : ℕ) (s : List Char), hasSub pat s = false →
      pyReplaceAux pat repl fuel s = s := by
  intro fuel
  induction fuel with
  | zero => intro s _; rfl
  | succ fuel ih =>
    intro s h
    match s with
    | [] => rfl
    | c :: rest =>
      simp only [hasSub, Bool.or_eq_false_iff] at h
      simp only [pyReplaceAux, h.1, Bool.false_eq_true, if_false]
      rw [ih rest h.2]

/-! ### C3 -/

/-- C3: for every well-formed string query the search boundary never lets an
exception escape: `get_knowledge_context` is a total `String`-valued
function, and any error outcome of the inner `search` call (the
`try/except Exception` block of main.py lines 316-348) is converted to the
empty context string instead of propagating. -/
theorem get_knowledge_context_error_to_empty
    (store : Option FAISSVectorStore) (e : String) :
    get_knowledge_context store (Except.error e) = "" := by
  cases store <;> rfl

/-! ### C8 -/

/-- C8: `search` on a store whose index is absent (`None`) or holds zero
vectors returns the empty list for every query, `top_k` and threshold
(faiss_store.py lines 87-88). -/
theorem search_empty_index (s : FAISSVectorStore) (embed : String → List ℚ)
    (q : String) (k : ℕ) (t : ℚ)
    (h : s.index = none ∨ s.index = some ([] : List (List ℚ))) :
    s.search embed q k t = [] := by
  rcases h with h | h <;> simp [FAISSVectorStore.search, h]

/-- Witness for C8 at a concrete store with no index. -/
theorem search_empty_index_witness :
    demoStore0.index = none ∧ demoStore0.search demoEmbed1 "q" 3 0 = [] :=
  ⟨rfl, search_empty_index demoStore0 demoEmbed1 "q" 3 0 (Or.inl rfl)⟩

/-! ### C10 -/

/-- C10: `save` derives the companion data path by replacing every
occurrence of the substring `.index` with `.data`, `load` and
`check_index_exists` derive it in exactly the same way, and for a path with
no `.index` occurrence the derived data path is the path itself, so both
artifacts are addressed by the identical path (the pickled data file then
overwrites the just-written index file). -/
theorem dataPath_derivation (p : String) :
    (saveDataPath p = loadDataPath p ∧ saveDataPath p = checkDataPath p) ∧
      (hasSub ".index".data p.data = false → saveDataPath p = p) := by
  refine ⟨⟨rfl, rfl⟩, fun h => ?_⟩
  show String.mk (pyReplaceAux ".index".data ".data".data p.data.length p.data) = p
  rw [pyReplaceAux_of_not_hasSub _ _ _ _ h]

/-- Witness for C10 at the concrete path `"store.bin"`, which contains no
`.index` substring: both artifacts get the identical path. -/
theorem dataPath_derivation_witness :
    hasSub ".index".data "store.bin".data = false ∧
      saveDataPath "store.bin" = "store.bin" :=
  ⟨by decide, (dataPath_derivation "store.bin").2 (by decide)⟩

/-! ### C7 -/

/-- C7: `build_index` pads an absent or short metadata list with empty dicts
and truncates a long one, so position `i` carries `metadata[i]` when the
given list reaches it and the empty dict otherwise, and the metadata array
always ends up parallel to the texts (faiss_store.py lines 59-67). -/
theorem build_index_metadata_rule (s : FAISSVectorStore)
    (embedB : List String → List (List ℚ)) (texts : List String)
    (md : Option (List Metadata)) (i : ℕ) (h : i < texts.length) :
    (s.build_index embedB texts md).metadata.length = texts.length ∧
      (s.build_index embedB texts md).metadata.getD i [] =
        (match md with
         | none => []
         | some m => if i < m.length then m.getD i [] else []) := by
  cases md with
  | none =>
    refine ⟨by simp [FAISSVectorStore.build_index], ?_⟩
    simp [FAISSVectorStore.build_index, List.getD, List.getElem?_replicate, h]
  | some m =>
    by_cases hm : m.length < texts.length
    · refine ⟨?_, ?_⟩
      · simp [FAISSVectorStore.build_index, hm, Nat.add_sub_cancel' (le_of_lt hm)]
      · simp only [FAISSVectorStore.build_index, hm, if_true]
        by_cases hi : i < m.length
        · rw [List.getD_append _ _ _ _ hi, if_pos hi]
        · push_neg at hi
          rw [List.getD_append_right _ _ _ _ hi, if_neg (not_lt.mpr hi)]
          simp [List.getD, List.getElem?_replicate, Nat.sub_lt_sub_right hi h]
    · push_neg at hm
      refine ⟨?_, ?_⟩
      · simp [FAISSVectorStore.build_index, not_lt.mpr hm,
          Nat.min_eq_left (le_of_lt (lt_of_lt_of_le h hm))]
        omega
      · simp only [FAISSVectorStore.build_index, not_lt.mpr hm, if_false]
        rw [if_pos (lt_of_lt_of_le h hm)]
        simp [List.getD, List.getElem?_take, h]

/-- Witness for C7: the spec's concrete example
`build(["a","b","c"], [{"url":"x"}])` — document 0 carries `{"url":"x"}`,
documents 1 and 2 carry `{}`. -/
theorem build_index_metadata_rule_witness :
    (0:ℕ) < (["a","b","c"] : List String).length ∧
      (demoStore0.build_index demoEmbedB ["a","b","c"]
        (some [[("url","x")]])).metadata.getD 0 [] = [("url","x")] ∧
      (demoStore0.build_index demoEmbedB ["a","b","c"]
        (some [[("url","x")]])).metadata.getD 1 [] = [] ∧
      (demoStore0.build_index demoEmbedB ["a","b","c"]
        (some [[("url","x")]])).metadata.getD 2 [] = [] :=
  ⟨by decide,
    ((build_index_metadata_rule demoStore0 demoEmbedB ["a","b","c"]
      (some [[("url","x")]]) 0 (by decide)).2).trans (by decide),
    ((build_index_metadata_rule demoStore0 demoEmbedB ["a","b","c"]
      (some [[("url","x")]]) 1 (by decide)).2).trans (by decide),
    ((build_index_metadata_rule demoStore0 demoEmbedB ["a","b","c"]
      (some [[("url","x")]]) 2 (by decide)).2).trans (by decide)⟩

theorem simPairs_length (q : List ℚ) :
    ∀ (vs : List (List ℚ)) (i : ℤ), (simPairs q vs i).length = vs.length := by
  intro vs
  induction vs with
  | nil => intro i; rfl
  | cons v vs ih => intro i; simp [simPairs, ih]

theorem mem_simPairs (q : List ℚ) :
    ∀ (vs : List (List ℚ)) (i : ℤ) (p : ℚ × ℤ), p ∈ simPairs q vs i →
      ∃ v ∈ vs, p.1 = innerProduct q v ∧ i ≤ p.2 ∧ p.2 < i + vs.length := by
  intro vs
  induction vs with
  | nil => intro i p h; simp [simPairs] at h
  | cons v vs ih =>
    intro i p h
    simp only [simPairs, List.mem_cons] at h
    rcases h with h | h
    · subst h
      exact ⟨v, List.mem_cons_self v vs, rfl, le_refl i, by simp⟩
    · obtain ⟨w, hw, h1, h2, h3⟩ := ih (i + 1) p h
      refine ⟨w, List.mem_cons_of_mem v hw, h1, by omega, ?_⟩
      have : ((vs.length : ℤ) + 1) = ((v :: vs).length : ℤ) := by simp
      omega

theorem faissSearch_length (vecs : List (List ℚ)) (q : List ℚ) (k : ℕ) :
    (faissSearch vecs q k).length = min k vecs.length := by
  unfold faissSearch
  rw [List.length_take, (List.perm_insertionSort simOrder _).length_eq, simPairs_length]

theorem mem_faissSearch {vecs : List (List ℚ)} {q : List ℚ} {k : ℕ} {p : ℚ × ℤ}
    (h : p ∈ faissSearch vecs q k) : p ∈ simPairs q vecs 0 :=
  (List.perm_insertionSort simOrder _).mem_iff.mp (List.take_subset _ _ h)

theorem sorted_faissSearch (vecs : List (List ℚ)) (q : List ℚ) (k : ℕ) :
    (faissSearch vecs q k).Pairwise simOrder :=
  (List.sorted_insertionSort simOrder _).sublist (List.take_sublist _ _)

theorem length_filterMap_le_of_imp {α β : Type} (f g : α → Option β) :
    ∀ l : List α, (∀ a ∈ l, (g a).isSome → (f a).isSome) →
      (l.filterMap g).length ≤ (l.filterMap f).length := by
  intro l
  induction l with
  | nil => intro _; simp
  | cons a l ih =>
    intro h
    have ht : ∀ x ∈ l, (g x).isSome → (f x).isSome :=
      fun x hx => h x (List.mem_cons_of_mem a hx)
    have ihl := ih ht
    cases hg : g a with
    | none =>
      cases hf : f a with
      | none => simpa [List.filterMap_cons, hg, hf] using ihl
      | some c =>
        simp only [List.filterMap_cons, hg, hf, List.length_cons]
        exact le_trans ihl (Nat.le_succ _)
    | some b =>
      have hfs : (f a).isSome := h a (List.mem_cons_self a l) (by simp [hg])
      obtain ⟨c, hc⟩ := Option.isSome_iff_exists.mp hfs
      simp only [List.filterMap_cons, hg, hc, List.length_cons]
      exact Nat.succ_le_succ ihl

theorem length_filterMap_of_all_some {α β : Type} (f : α → Option β) :
    ∀ l : List α, (∀ a ∈ l, (f a).isSome) → (l.filterMap f).length = l.length := by
  intro l
  induction l with
  | nil => intro _; rfl
  | cons a l ih =>
    intro h
    obtain ⟨c, hc⟩ := Option.isSome_iff_exists.mp (h a (List.mem_cons_self a l))
    simp only [List.filterMap_cons, hc, List.length_cons]
    rw [ih (fun x hx => h x (List.mem_cons_of_mem a hx))]

theorem formatStep_some_elim {docs : List String} {md : List Metadata}
    {t : ℚ} {p : ℚ × ℤ} {r : SearchResult}
    (h : formatStep docs md t p = some r) :
    (0 ≤ p.2 ∧ t ≤ p.1) ∧ p.2.toNat < docs.length ∧
      r = (docs.getD p.2.toNat "", p.1,
        if p.2.toNat < md.length then md.getD p.2.toNat [] else []) := by
  unfold formatStep at h
  by_cases h1 : 0 ≤ p.2 ∧ t ≤ p.1
  · rw [if_pos h1] at h
    by_cases h2 : docs.length ≤ p.2.toNat
    · rw [if_pos h2] at h; exact absurd h (by simp)
    · rw [if_neg h2] at h
      exact ⟨h1, not_le.mp h2, (Option.some_inj.mp h).symm⟩
  · rw [if_neg h1] at h; exact absurd h (by simp)

theorem formatStep_eq_some {docs : List String} {md : List Metadata}
    {t : ℚ} {p : ℚ × ℤ} (h1 : 0 ≤ p.2 ∧ t ≤ p.1) (h2 : p.2.toNat < docs.length) :
    formatStep docs md t p =
      some (docs.getD p.2.toNat "", p.1,
        if p.2.toNat < md.length then md.getD p.2.toNat [] else []) := by
  unfold formatStep
  rw [if_pos h1, if_neg (not_le.mpr h2)]

theorem formatStep_eq_none {docs : List String} {md : List Metadata}
    {t : ℚ} {p : ℚ × ℤ} (h : ¬(0 ≤ p.2 ∧ t ≤ p.1)) :
    formatStep docs md t p = none := by
  unfold formatStep
  rw [if_neg h]

theorem formatStep_eq_none_oob (md : List Metadata) (t : ℚ)
    {docs : List String} {p : ℚ × ℤ} (h2 : docs.length ≤ p.2.toNat) :
    formatStep docs md t p = none := by
  unfold formatStep
  by_cases h1 : 0 ≤ p.2 ∧ t ≤ p.1
  · rw [if_pos h1, if_pos h2]
  · rw [if_neg h1]

theorem mem_formatResults_sim {docs : List String} {md : List Metadata}
    {threshold : ℚ} {pairs : List (ℚ × ℤ)} {r : SearchResult}
    (h : r ∈ formatResults docs md threshold pairs) :
    ∃ p ∈ pairs, 0 ≤ p.2 ∧ threshold ≤ p.1 ∧ r.2.1 = p.1 := by
  obtain ⟨p, hp, he⟩ := List.mem_filterMap.mp h
  obtain ⟨⟨h0, h1⟩, _, hr⟩ := formatStep_some_elim he
  exact ⟨p, hp, h0, h1, by rw [hr]⟩

theorem search_eq_formatResults (s : FAISSVectorStore) {vecs : List (List ℚ)}
    (hix : s.index = some vecs) (h0 : vecs.length ≠ 0)
    (embed : String → List ℚ) (q : String) (k : ℕ) (t : ℚ) :
    s.search embed q k t =
      formatResults s.documents s.metadata t
        (faissSearch vecs (embed q) (min k vecs.length)) := by
  unfold FAISSVectorStore.search
  rw [hix]
  simp [h0]

theorem pairwise_filterMap_of {α β : Type} (f : α → Option β)
    (R : α → α → Prop) (S : β → β → Prop)
    (hf : ∀ a b x y, R a b → f a = some x → f b = some y → S x y) :
    ∀ l : List α, l.Pairwise R → (l.filterMap f).Pairwise S := by
  intro l
  induction l with
  | nil => intro _; simp
  | cons a l ih =>
    intro h
    obtain ⟨hhead, htail⟩ := List.pairwise_cons.mp h
    rw [List.filterMap_cons]
    cases hfa : f a with
    | none => exact ih htail
    | some x =>
      refine List.pairwise_cons.mpr ⟨?_, ih htail⟩
      intro y hy
      obtain ⟨b, hb, hfb⟩ := List.mem_filterMap.mp hy
      exact hf a b x y (hhead b hb) hfa hfb

theorem formatResults_eq_nil_of_lt (docs : List String) (md : List Metadata)
    (t : ℚ) (pairs : List (ℚ × ℤ)) (h : ∀ p ∈ pairs, p.1 < t) :
    formatResults docs md t pairs = [] := by
  unfold formatResults
  rw [List.filterMap_eq_nil_iff]
  intro p hp
  exact formatStep_eq_none (fun hc => absurd hc.2 (not_le.mpr (h p hp)))

theorem formatResults_append_of_le (docs : List String) (md : List Metadata)
    {t t' : ℚ} (h : t' ≤ t) :
    ∀ pairs : List (ℚ × ℤ), pairs.Pairwise simOrder →
      ∃ rest, formatResults docs md t' pairs = formatResults docs md t pairs ++ rest := by
  intro pairs
  induction pairs with
  | nil => intro _; exact ⟨[], rfl⟩
  | cons p ps ih =>
    intro hs
    obtain ⟨hhead, htail⟩ := List.pairwise_cons.mp hs
    by_cases h1 : 0 ≤ p.2 ∧ t ≤ p.1
    · have h1' : 0 ≤ p.2 ∧ t' ≤ p.1 := ⟨h1.1, le_trans h h1.2⟩
      by_cases h2 : p.2.toNat < docs.length
      · obtain ⟨rest, hr⟩ := ih htail
        refine ⟨rest, ?_⟩
        unfold formatResults at *
        rw [List.filterMap_cons, List.filterMap_cons,
          formatStep_eq_some h1 h2, formatStep_eq_some h1' h2, hr]
        rfl
      · obtain ⟨rest, hr⟩ := ih htail
        refine ⟨rest, ?_⟩
        unfold formatResults at *
        rw [List.filterMap_cons, List.filterMap_cons,
          formatStep_eq_none_oob md t (not_lt.mp h2),
          formatStep_eq_none_oob md t' (not_lt.mp h2)]
        exact hr
    · by_cases hneg : 0 ≤ p.2
      · have hlt : p.1 < t := by
          by_contra hge
          exact h1 ⟨hneg, not_lt.mp hge⟩
        have hnil : formatResults docs md t (p :: ps) = [] := by
          refine formatResults_eq_nil_of_lt docs md t (p :: ps) ?_
          intro p' hp'
          rcases List.mem_cons.mp hp' with hp' | hp'
          · rw [hp']; exact hlt
          · exact lt_of_le_of_lt (hhead p' hp') hlt
        exact ⟨formatResults docs md t' (p :: ps), by rw [hnil]; rfl⟩
      · have h1' : ¬(0 ≤ p.2 ∧ t' ≤ p.1) := fun hc => hneg hc.1
        obtain ⟨rest, hr⟩ := ih htail
        refine ⟨rest, ?_⟩
        unfold formatResults at *
        rw [List.filterMap_cons, List.filterMap_cons,
          formatStep_eq_none h1, formatStep_eq_none h1']
        exact hr

/-! ### C5 -/

/-- C5: every tuple returned by `search(q, k, t)` has `similarity >= t`
(the filter of faiss_store.py line 107), and raising the threshold never
increases the result count: for `t1 <= t2`,
`len(search(q,k,t2)) <= len(search(q,k,t1))`. -/
theorem search_threshold_invariant (s : FAISSVectorStore)
    (embed : String → List ℚ) (q : String) (k : ℕ) (t1 t2 : ℚ) (h : t1 ≤ t2) :
    (∀ t : ℚ, ∀ r ∈ s.search embed q k t, t ≤ r.2.1) ∧
      (s.search embed q k t2).length ≤ (s.search embed q k t1).length := by
  constructor
  · intro t r hr
    cases hix : s.index with
    | none =>
      unfold FAISSVectorStore.search at hr
      rw [hix] at hr
      simp at hr
    | some vecs =>
      by_cases h0 : vecs.length = 0
      · unfold FAISSVectorStore.search at hr
        rw [hix] at hr
        simp [h0] at hr
      · rw [search_eq_formatResults s hix h0] at hr
        obtain ⟨p, _, _, hth, hsim⟩ := mem_formatResults_sim hr
        rw [hsim]; exact hth
  · cases hix : s.index with
    | none =>
      unfold FAISSVectorStore.search
      rw [hix]
    | some vecs =>
      by_cases h0 : vecs.length = 0
      · unfold FAISSVectorStore.search
        rw [hix]
        simp [h0]
      · rw [search_eq_formatResults s hix h0, search_eq_formatResults s hix h0]
        unfold formatResults
        apply length_filterMap_le_of_imp
        intro p _ hg
        obtain ⟨r, hr⟩ := Option.isSome_iff_exists.mp hg
        obtain ⟨⟨hp0, hp2⟩, hdoc, _⟩ := formatStep_some_elim hr
        rw [formatStep_eq_some ⟨hp0, le_trans h hp2⟩ hdoc]
        rfl

/-- Witness for C5: on the one-vector store with an aligned query embedding,
thresholds `0 ≤ 1/2`. -/
theorem search_threshold_invariant_witness :
    (0 : ℚ) ≤ 1/2 ∧
      (demoStore1.search demoEmbed1 "q" 1 (1/2)).length ≤
        (demoStore1.search demoEmbed1 "q" 1 0).length :=
  ⟨by norm_num,
    (search_threshold_invariant demoStore1 demoEmbed1 "q" 1 0 (1/2) (by norm_num)).2⟩

/-! ### C6 -/

/-- C6: the similarities returned by `search` are non-increasing (FAISS
returns neighbours ranked descending, and the formatting loop keeps that
order), and threshold filtering only removes a tail: the result at a higher
threshold `t` is an initial segment of the result at any lower threshold
`t'`, never a reordering. -/
theorem search_ranking_invariant (s : FAISSVectorStore)
    (embed : String → List ℚ) (q : String) (k : ℕ) (t t' : ℚ) (h : t' ≤ t) :
    (s.search embed q k t).Pairwise (fun a b : SearchResult => b.2.1 ≤ a.2.1) ∧
      ∃ rest, s.search embed q k t' = s.search embed q k t ++ rest := by
  cases hix : s.index with
  | none =>
    constructor
    · unfold FAISSVectorStore.search
      rw [hix]
      simp
    · refine ⟨[], ?_⟩
      unfold FAISSVectorStore.search
      rw [hix]
      rfl
  | some vecs =>
    by_cases h0 : vecs.length = 0
    · constructor
      · unfold FAISSVectorStore.search
        rw [hix]
        simp [h0]
      · refine ⟨[], ?_⟩
        unfold FAISSVectorStore.search
        rw [hix]
        simp [h0]
    · constructor
      · rw [search_eq_formatResults s hix h0]
        unfold formatResults
        refine pairwise_filterMap_of _ simOrder _ ?_ _
          (sorted_faissSearch vecs (embed q) (min k vecs.length))
        intro a b x y hab ha hb
        obtain ⟨_, _, hx⟩ := formatStep_some_elim ha
        obtain ⟨_, _, hy⟩ := formatStep_some_elim hb
        rw [hx, hy]
        exact hab
      · rw [search_eq_formatResults s hix h0, search_eq_formatResults s hix h0]
        exact formatResults_append_of_le s.documents s.metadata h _
          (sorted_faissSearch vecs (embed q) (min k vecs.length))

/-- Witness for C6 at the one-vector store, thresholds `0 ≤ 1`. -/
theorem search_ranking_invariant_witness :
    (0 : ℚ) ≤ 1 ∧
      ∃ rest, demoStore1.search demoEmbed1 "q" 2 0 =
        demoStore1.search demoEmbed1 "q" 2 1 ++ rest :=
  ⟨by norm_num,
    (search_ranking_invariant demoStore1 demoEmbed1 "q" 2 1 0 (by norm_num)).2⟩

/-! ### C1 -/

/-- C1 counterexample: on a store holding `n = 1` vector `[1]`, with a query
whose embedding is `[-1]` (cosine similarity `-1`), `search(q, 1, 0.0)`
returns 0 results even though `min(k, n) = min 1 1 = 1`: the filter
`similarity >= threshold` at `threshold = 0.0` removes the strictly negative
similarity, so threshold `0.0` is NOT "no filtering beyond the top_k cap". -/
theorem search_cardinality_counterexample :
    demoStore1.index = some [[(1:ℚ)]] ∧
      (demoStore1.search demoEmbedNeg "q" 1 0).length = 0 ∧ min 1 1 = 1 := by
  refine ⟨rfl, ?_, rfl⟩
  simp [demoStore1, demoEmbedNeg, FAISSVectorStore.search, formatResults, formatStep,
    faissSearch, simPairs, innerProduct, List.insertionSort, List.orderedInsert]

/-- C1 amended: for a store whose index holds `n > 0` vectors with parallel
documents, `k ≥ 1`, and threshold `0.0`, `search` returns exactly
`min(k, n)` results PROVIDED every stored vector has nonnegative similarity
to the query; in general the `similarity >= 0.0` filter drops strictly
negative similarities, so only `len ≤ min(k, n)` holds unconditionally. -/
theorem search_cardinality_of_nonneg (s : FAISSVectorStore)
    {vecs : List (List ℚ)} (embed : String → List ℚ) (q : String) (k : ℕ)
    (hix : s.index = some vecs) (hn : 0 < vecs.length) (_hk : 1 ≤ k)
    (hdocs : s.documents.length = vecs.length)
    (hpos : ∀ v ∈ vecs, 0 ≤ innerProduct (embed q) v) :
    (s.search embed q k 0).length = min k vecs.length := by
  rw [search_eq_formatResults s hix (Nat.pos_iff_ne_zero.mp hn)]
  have hlen : (faissSearch vecs (embed q) (min k vecs.length)).length
      = min k vecs.length := by
    rw [faissSearch_length]
    omega
  have hsome : ∀ p ∈ faissSearch vecs (embed q) (min k vecs.length),
      (formatStep s.documents s.metadata 0 p).isSome := by
    intro p hp
    obtain ⟨v, hv, hsim, h0le, hlt⟩ :=
      mem_simPairs (embed q) vecs 0 p (mem_faissSearch hp)
    have hb : p.2.toNat < s.documents.length := by
      rw [hdocs]; omega
    rw [formatStep_eq_some ⟨h0le, by rw [hsim]; exact hpos v hv⟩ hb]
    rfl
  unfold formatResults
  rw [length_filterMap_of_all_some _ _ hsome, hlen]

/-- Witness for C1's amended statement: one stored vector aligned with the
query embedding (similarity `1 ≥ 0`), `k = 1`. -/
theorem search_cardinality_of_nonneg_witness :
    (demoStore1.search demoEmbed1 "q" 1 0).length = min 1 1 := by
  have hp : ∀ v ∈ [[(1:ℚ)]], 0 ≤ innerProduct (demoEmbed1 "q") v := by
    intro v hv
    simp only [List.mem_singleton] at hv
    subst hv
    norm_num [innerProduct, demoEmbed1]
  exact search_cardinality_of_nonneg demoStore1 demoEmbed1 "q" 1 rfl
    (by decide) (by decide) rfl hp

/-! ### C2 -/

/-- C2 counterexample: on a store with an existing index, calling
`add_documents(["a","b"], [{"u":"x"}])` extends the metadata array by the
given one-element list verbatim — no padding to the batch size — so
afterwards `len(documents) = 3` but `len(metadata) = 2`: the `build`
defaulting rule is not applied and the parallel-array invariant is broken. -/
theorem add_documents_padding_counterexample :
    demoStore1.index ≠ none ∧
      (demoStore1.add_documents demoEmbedB ["a", "b"]
        (some [[("u", "x")]])).documents.length = 3 ∧
      (demoStore1.add_documents demoEmbedB ["a", "b"]
        (some [[("u", "x")]])).metadata.length = 2 :=
  ⟨by simp [demoStore1], rfl, rfl⟩

/-- C2 amended: `add_documents` pads with empty dicts only when the metadata
argument is absent or empty, and otherwise appends it verbatim; the
parallel-array invariant (and vector count = text count) is preserved
exactly when the metadata argument is absent, empty, or already of the
batch's length. -/
theorem add_documents_length_of_matching (s : FAISSVectorStore)
    {vecs : List (List ℚ)} (embedB : List String → List (List ℚ))
    (texts : List String) (md : Option (List Metadata))
    (hix : s.index = some vecs)
    (hB : (embedB texts).length = texts.length)
    (hinv : s.documents.length = vecs.length ∧ s.metadata.length = s.documents.length)
    (hmd : md = none ∨ md = some [] ∨ ∃ l, md = some l ∧ l.length = texts.length) :
    (s.add_documents embedB texts md).index = some (vecs ++ embedB texts) ∧
      (s.add_documents embedB texts md).documents.length = vecs.length + texts.length ∧
      (s.add_documents embedB texts md).metadata.length =
        (s.add_documents embedB texts md).documents.length ∧
      (vecs ++ embedB texts).length = (s.add_documents embedB texts md).documents.length := by
  obtain ⟨h1, h2⟩ := hinv
  rcases hmd with h | h | ⟨l, h, hl⟩
  · subst h
    refine ⟨by simp [FAISSVectorStore.add_documents, hix], ?_, ?_, ?_⟩ <;>
      simp [FAISSVectorStore.add_documents, hix, h1, h2, hB]
  · subst h
    refine ⟨by simp [FAISSVectorStore.add_documents, hix], ?_, ?_, ?_⟩ <;>
      simp [FAISSVectorStore.add_documents, hix, h1, h2, hB]
  · subst h
    by_cases hE : l.isEmpty
    · refine ⟨by simp [FAISSVectorStore.add_documents, hix], ?_, ?_, ?_⟩ <;>
        simp [FAISSVectorStore.add_documents, hix, h1, h2, hB, hE, hl]
    · refine ⟨by simp [FAISSVectorStore.add_documents, hix], ?_, ?_, ?_⟩ <;>
        simp [FAISSVectorStore.add_documents, hix, h1, h2, hB, hE, hl]

/-- Witness for C2's amended statement: appending one document with one
metadata dict to the one-vector store preserves the parallel lengths. -/
theorem add_documents_length_of_matching_witness :
    (demoStore1.add_documents demoEmbedB ["a"] (some [[("u", "x")]])).metadata.length =
      (demoStore1.add_documents demoEmbedB ["a"] (some [[("u", "x")]])).documents.length :=
  (add_documents_length_of_matching demoStore1 demoEmbedB ["a"] (some [[("u", "x")]])
    rfl rfl ⟨rfl, rfl⟩ (Or.inr (Or.inr ⟨[[("u", "x")]], rfl, rfl⟩))).2.2.1

/-! ### C4 -/

theorem search_congr (s s' : FAISSVectorStore) (hix : s.index = s'.index)
    (hd : s.documents = s'.documents) (hm : s.metadata = s'.metadata)
    (embed : String → List ℚ) (q : String) (k : ℕ) (t : ℚ) :
    s.search embed q k t = s'.search embed q k t := by
  unfold FAISSVectorStore.search
  rw [hix, hd, hm]

theorem build_index_metadata_length (s : FAISSVectorStore)
    (embedB : List String → List (List ℚ)) (texts : List String)
    (md : Option (List Metadata)) :
    (s.build_index embedB texts md).metadata.length = texts.length := by
  unfold FAISSVectorStore.build_index
  cases md with
  | none => simp
  | some m =>
    by_cases hm : m.length < texts.length
    · simp [hm]
      omega
    · simp [hm]
      omega

/-- C4 counterexample: the claim quantifies over every path, but for the
path `"store.bin"` (no `.index` substring) `save` derives
`data_path = "store.bin"` and the pickle overwrites the just-written index
artifact, so a fresh store's `load("store.bin")` hits `faiss.read_index` on
a pickle and raises instead of reproducing the search results. -/
theorem save_load_roundtrip_counterexample :
    saveDataPath "store.bin" = "store.bin" ∧
      demoStore0.load "store.bin"
          ((demoStore0.build_index demoEmbedB ["a"] none).save "store.bin" emptyDisk) =
        Except.error "faiss.read_index failed: not a FAISS index file" := by
  constructor
  · decide
  · simp [FAISSVectorStore.load, FAISSVectorStore.save, demoStore0, demoEmbedB,
      emptyDisk, FAISSVectorStore.build_index, show saveDataPath "store.bin" = "store.bin" by decide]

/-- C4 amended: for every path whose derived data path
`path.replace('.index', '.data')` differs from the path itself (so the two
artifacts land on distinct files — e.g. any path ending in `.index`),
build-then-save-then-load-in-a-fresh-store succeeds and searching the
loaded store gives exactly the same ordered (text, similarity, metadata)
results as searching the original store, for every query, `top_k` and
threshold (equality is exact in the rational model, hence within any
floating tolerance).  For a path with no `.index` occurrence the two paths
coincide, the pickle overwrites the index artifact, and `load` fails. -/
theorem save_load_roundtrip_search (s0 s1 : FAISSVectorStore)
    (embedB : List String → List (List ℚ)) (texts : List String)
    (md : Option (List Metadata)) (disk : Disk) (path : String)
    (embed : String → List ℚ) (q : String) (k : ℕ) (t : ℚ)
    (hpath : saveDataPath path ≠ path) :
    Except.map (fun s' => s'.search embed q k t)
        (s1.load path ((s0.build_index embedB texts md).save path disk)) =
      Except.ok ((s0.build_index embedB texts md).search embed q k t) := by
  have h1 : path ≠ saveDataPath path := fun h => hpath h.symm
  have hlen := build_index_metadata_length s0 embedB texts md
  have hd : (s0.build_index embedB texts md).documents = texts := rfl
  have hix : (s0.build_index embedB texts md).index = some (embedB texts) := rfl
  have hload : loadDataPath path = saveDataPath path := rfl
  unfold FAISSVectorStore.save FAISSVectorStore.load
  simp only [h1, if_false, if_pos rfl, hload, if_true, hix, Option.getD_some]
  simp only [Except.map]
  congr 1
  apply search_congr
  · rfl
  · simp [hd]
  · simp [hd, hlen]

/-- Witness for C4's amended statement at the concrete path
`"vectors.index"`, whose derived data path `"vectors.data"` is distinct. -/
theorem save_load_roundtrip_search_witness :
    saveDataPath "vectors.index" ≠ "vectors.index" ∧
      Except.map (fun s' => s'.search demoEmbed1 "q" 1 0)
          (demoStore0.load "vectors.index"
            ((demoStore0.build_index demoEmbedB ["a"] none).save "vectors.index" emptyDisk)) =
        Except.ok ((demoStore0.build_index demoEmbedB ["a"] none).search demoEmbed1 "q" 1 0) :=
  ⟨by decide,
    save_load_roundtrip_search demoStore0 demoStore0 demoEmbedB ["a"] none
      emptyDisk "vectors.index" demoEmbed1 "q" 1 0 (by decide)⟩

/-! ### C9 -/

/-- C9: `build_index` on an empty text batch produces a store whose index is
present with zero vectors (given that `embed_batch` returns an `N × D`
matrix, i.e. no rows for no texts), and every subsequent `search` on it
returns the empty list. -/
theorem build_index_empty_texts (s : FAISSVectorStore)
    (embedB : List String → List (List ℚ)) (md : Option (List Metadata))
    (embed : String → List ℚ) (q : String) (k : ℕ) (t : ℚ)
    (hE : embedB [] = []) :
    (s.build_index embedB [] md).index = some [] ∧
      (s.build_index embedB [] md).search embed q k t = [] := by
  constructor
  · simp [FAISSVectorStore.build_index, hE]
  · unfold FAISSVectorStore.search
    simp [FAISSVectorStore.build_index, hE]

/-- Witness for C9 with the concrete batch embedder. -/
theorem build_index_empty_texts_witness :
    demoEmbedB [] = [] ∧
      ((demoStore0.build_index demoEmbedB [] none).search demoEmbed1 "q" 3 0 = []) :=
  ⟨rfl, (build_index_empty_texts demoStore0 demoEmbedB none demoEmbed1 "q" 3 0 rfl).2⟩
